import Mathlib

/-!
Verification development for the spaced-repetition scheduler and
adaptive-difficulty engine of `src/services/SpacedRepetitionEngine.ts`.

Modelling conventions:
- JavaScript numbers are modelled as rationals (ℚ).  Every concrete value
  exercised below is exactly representable and the arithmetic involved is
  exact in IEEE doubles as well (the quantities compared differ by at least
  0.05, far above double rounding error), so the rational model is faithful
  on these inputs.
- `Math.round x` in JavaScript is `⌊x + 1/2⌋` (ties toward +∞), modelled by
  `jsRound`.
- `calculateNextReview`, `getDueExercises` and `getStatistics` call
  `Date.now()` internally (lines 27, 110 and 118 of the source).  The value
  returned by that read is made explicit here as a `now` argument, so that
  the dependence of the results on the wall clock is expressible.
- Division of doubles by zero yields Infinity or NaN, which fail every `<`
  comparison; ℚ division by zero yields 0, which would not.  The speed
  component of `calculateConfidenceScore` is therefore modelled with an
  explicit zero-denominator case reproducing the IEEE branch outcomes.
-/

/-- Review schedule record, from `SpacedRepetitionSchedule` as used by the
engine: identity strings, epoch-millisecond instants, interval in days,
ease factor and repetition count. -/
structure SpacedRepetitionSchedule where
  exerciseId : String
  userId : String
  nextReviewDate : ℚ
  interval : ℚ
  easeFactor : ℚ
  repetitionCount : ℤ
  lastReviewDate : ℚ
deriving DecidableEq, Repr

/-- Performance sample fed to the engine (`PerformanceQuality` in the
source): correctness, confidence in percent, time spent in seconds. -/
structure PerformanceQuality where
  correct : Bool
  confidence : ℚ
  timeSpent : ℚ
deriving DecidableEq, Repr

/-- SM-2 constant `INITIAL_EASE_FACTOR = 2.5`. -/
def INITIAL_EASE_FACTOR : ℚ := 5/2

/-- SM-2 constant `MINIMUM_EASE_FACTOR = 1.3`. -/
def MINIMUM_EASE_FACTOR : ℚ := 13/10

/-- JavaScript `Math.round`: floor of `x + 1/2`, ties rounding up. -/
def jsRound (x : ℚ) : ℤ := ⌊x + 1/2⌋

/-- Source `daysToMs`: days times `24 * 60 * 60 * 1000`. -/
def daysToMs (days : ℚ) : ℚ := days * 24 * 60 * 60 * 1000

/-- Source `calculateQuality`: quality score 0..5 from correctness and
confidence.  Incorrect answers give `max 0 (confidence < 30 ? 0 : 2)`;
correct answers give 5 / 4 / 3 at confidence thresholds 90 / 75 / 50 and
2 below. -/
def calculateQuality (performance : PerformanceQuality) : ℤ :=
  if !performance.correct then
    max 0 (if performance.confidence < 30 then 0 else 2)
  else if performance.confidence ≥ 90 then 5
  else if performance.confidence ≥ 75 then 4
  else if performance.confidence ≥ 50 then 3
  else 2

/-- Source `calculateNewEaseFactor`: the SM-2 update
`EF + 0.1 - (5 - q) * (0.08 + (5 - q) * 0.02)` clamped below at
`MINIMUM_EASE_FACTOR`. -/
def calculateNewEaseFactor (currentEF : ℚ) (quality : ℤ) : ℚ :=
  max MINIMUM_EASE_FACTOR
    (currentEF + 1/10 - ((5 : ℚ) - (quality : ℚ)) * (8/100 + ((5 : ℚ) - (quality : ℚ)) * (2/100)))

/-- Source `calculateNextReview`.  The `now` argument is the value of the
`Date.now()` read performed at the top of the function (line 27).  A `null`
schedule takes the first-review branch with fixed interval 1, ease factor
`INITIAL_EASE_FACTOR` and repetition count 1; otherwise the SM-2 path runs:
interval 1 on failure (`quality < 3`) or at repetition count 0, interval 3
at repetition count 1, else `Math.round(interval * newEaseFactor)`; the
repetition count increments on `quality ≥ 3` and resets to 1 otherwise. -/
def calculateNextReview (now : ℚ) (currentSchedule : Option SpacedRepetitionSchedule)
    (performance : PerformanceQuality) : SpacedRepetitionSchedule :=
  match currentSchedule with
  | none =>
      { exerciseId := ""
        userId := ""
        nextReviewDate := now + daysToMs 1
        interval := 1
        easeFactor := INITIAL_EASE_FACTOR
        repetitionCount := 1
        lastReviewDate := now }
  | some cs =>
      let quality := calculateQuality performance
      let newEaseFactor := calculateNewEaseFactor cs.easeFactor quality
      let interval : ℚ :=
        if quality < 3 then 1
        else if cs.repetitionCount = 0 then 1
        else if cs.repetitionCount = 1 then 3
        else (jsRound (cs.interval * newEaseFactor) : ℚ)
      { exerciseId := cs.exerciseId
        userId := cs.userId
        nextReviewDate := now + daysToMs interval
        interval := interval
        easeFactor := newEaseFactor
        repetitionCount := if quality ≥ 3 then cs.repetitionCount + 1 else 1
        lastReviewDate := now }

/-- Source `getDueExercises`: keeps the schedules with
`nextReviewDate ≤ now`, where `now` is the `Date.now()` read at line 110. -/
def getDueExercises (now : ℚ) (schedules : List SpacedRepetitionSchedule) :
    List SpacedRepetitionSchedule :=
  schedules.filter (fun s => decide (s.nextReviewDate ≤ now))

/-- Aggregate statistics record returned by `getStatistics`. -/
structure Statistics where
  total : ℕ
  due : ℕ
  new : ℕ
  learning : ℕ
  review : ℕ
  averageEaseFactor : ℚ
deriving DecidableEq, Repr

/-- Source `getStatistics` with the `Date.now()` read (line 118) explicit:
`due` counts `nextReviewDate ≤ now`, `new` counts `repetitionCount == 0`,
`learning` counts `0 < repetitionCount < 3` with `nextReviewDate > now`,
`review` counts `repetitionCount ≥ 3` with `nextReviewDate > now`;
`averageEaseFactor` is the sum of ease factors over the length (the source
produces NaN on an empty list; ℚ division by zero gives 0 here, a case no
theorem below exercises). -/
def getStatistics (now : ℚ) (schedules : List SpacedRepetitionSchedule) : Statistics :=
  { total := schedules.length
    due := (schedules.filter (fun s => decide (s.nextReviewDate ≤ now))).length
    new := (schedules.filter (fun s => decide (s.repetitionCount = 0))).length
    learning := (schedules.filter (fun s =>
        decide (0 < s.repetitionCount ∧ s.repetitionCount < 3 ∧ now < s.nextReviewDate))).length
    review := (schedules.filter (fun s =>
        decide (3 ≤ s.repetitionCount ∧ now < s.nextReviewDate))).length
    averageEaseFactor := (schedules.map (fun s => s.easeFactor)).sum / (schedules.length : ℚ) }

/-- Difficulty tier list of `DifficultyAdapter.suggestNextDifficulty`. -/
def difficulties : List String := ["easy", "medium", "hard", "expert"]

/-- JavaScript `Array.indexOf`: index of the first occurrence, or -1 when
absent. -/
def jsIndexOf (l : List String) (s : String) : ℤ :=
  match l.findIdx? (fun x => x == s) with
  | some n => (n : ℤ)
  | none => -1

/-- Source `suggestNextDifficulty`: with
`performanceScore = correctRate * (confidenceScore / 100)`, move one index
up (clamped at the last tier) above 0.8, one index down (clamped at 0)
below 0.4, and keep the current difficulty otherwise. -/
def suggestNextDifficulty (currentDifficulty : String) (correctRate confidenceScore : ℚ) :
    String :=
  let performanceScore := correctRate * (confidenceScore / 100)
  let currentIndex := jsIndexOf difficulties currentDifficulty
  if performanceScore > 4/5 then
    difficulties.getD (min (currentIndex + 1) ((difficulties.length : ℤ) - 1)).toNat ""
  else if performanceScore < 2/5 then
    difficulties.getD (max (currentIndex - 1) 0).toNat ""
  else currentDifficulty

/-- Speed component of `calculateConfidenceScore`.  The source computes
`timeTaken / averageTimePerExercise` on doubles and compares the ratio with
0.5, 1 and 2.  For `averageTimePerExercise = 0` the double ratio is
Infinity (positive `timeTaken`), NaN (`timeTaken = 0`) or -Infinity
(negative `timeTaken`); NaN and Infinity fail all three comparisons (0
points) while -Infinity passes the first (30 points).  That zero-denominator
case is made explicit because ℚ division by zero would return 0. -/
def speedScore (timeTaken averageTimePerExercise : ℚ) : ℚ :=
  if averageTimePerExercise = 0 then
    (if timeTaken < 0 then 30 else 0)
  else
    let speedRatio := timeTaken / averageTimePerExercise
    if speedRatio < 1/2 then 30
    else if speedRatio < 1 then 20
    else if speedRatio < 2 then 10
    else 0

/-- Source `calculateConfidenceScore`: 40 points for a correct answer and
10 otherwise, plus the speed component, plus `previousAccuracy * 30`,
rounded with `Math.round`. -/
def calculateConfidenceScore (isCorrect : Bool) (timeTaken averageTimePerExercise
    previousAccuracy : ℚ) : ℤ :=
  jsRound ((if isCorrect then 40 else 10)
    + speedScore timeTaken averageTimePerExercise
    + previousAccuracy * 30)

/-! Helper lemmas shared by several theorems below. -/

/-- The clamped SM-2 ease update never goes below 13/10. -/
lemma minEase_le_newEaseFactor (ef : ℚ) (q : ℤ) :
    13/10 ≤ calculateNewEaseFactor ef q := by
  simp only [calculateNewEaseFactor, MINIMUM_EASE_FACTOR]
  exact le_max_left _ _

/-- JavaScript rounding of a quantity at least 1 stays at least 1. -/
lemma one_le_jsRound {x : ℚ} (hx : 1 ≤ x) : (1 : ℤ) ≤ jsRound x := by
  unfold jsRound
  exact Int.le_floor.mpr (by push_cast; linarith)

/-- The speed component always lands in [0, 30]. -/
lemma speedScore_mem (t avg : ℚ) : 0 ≤ speedScore t avg ∧ speedScore t avg ≤ 30 := by
  simp only [speedScore]
  split_ifs <;> norm_num

/-- Per-element bucket count of `getStatistics`: due, new, learning and
review indicators sum to one plus the due-and-new overlap indicator, for a
nonnegative repetition count. -/
lemma bucket_contribution (now : ℚ) (s : SpacedRepetitionSchedule)
    (hs : 0 ≤ s.repetitionCount) :
    ((if s.nextReviewDate ≤ now then 1 else 0)
      + (if s.repetitionCount = 0 then 1 else 0)
      + (if 0 < s.repetitionCount ∧ s.repetitionCount < 3 ∧ now < s.nextReviewDate then 1 else 0)
      + (if 3 ≤ s.repetitionCount ∧ now < s.nextReviewDate then 1 else 0) : ℕ)
    = 1 + (if s.nextReviewDate ≤ now ∧ s.repetitionCount = 0 then 1 else 0) := by
  by_cases h1 : s.nextReviewDate ≤ now
  · have h3 : ¬ now < s.nextReviewDate := not_lt.mpr h1
    by_cases h2 : s.repetitionCount = 0 <;> simp [h1, h2, h3]
  · have h3 : now < s.nextReviewDate := not_le.mp h1
    by_cases h2 : s.repetitionCount = 0
    · simp [h1, h2, h3]
    · have hpos : 0 < s.repetitionCount := lt_of_le_of_ne hs (Ne.symm h2)
      by_cases h4 : s.repetitionCount < 3
      · simp [h1, h2, h3, hpos, h4, not_le.mpr h4]
      · simp [h1, h2, h3, h4, not_lt.mp h4, hpos]

/-- Claim C1 (counterexample): the first-review equivalence fails on the
source.  At `previous = null`, `wasCorrect = true`, `confidencePercent =
95`, the null branch returns ease factor 5/2 while feeding a state with
repetition count 0, ease factor 5/2 and interval 0 through the normal path
returns ease factor 13/5, so the two results differ; in particular the
result of the null call does not have ease factor near 2.6. -/
theorem firstReview_counterexample :
    calculateNextReview 0 none ⟨true, 95, 5⟩ ≠
      calculateNextReview 0 (some ⟨"", "", 0, 0, 5/2, 0, 0⟩) ⟨true, 95, 5⟩ ∧
    (calculateNextReview 0 none ⟨true, 95, 5⟩).easeFactor = 5/2 ∧
    (calculateNextReview 0 (some ⟨"", "", 0, 0, 5/2, 0, 0⟩) ⟨true, 95, 5⟩).easeFactor = 13/5 := by
  refine ⟨?_, ?_, ?_⟩
  · intro h
    have h2 := congrArg SpacedRepetitionSchedule.easeFactor h
    norm_num [calculateNextReview, calculateQuality, calculateNewEaseFactor,
      MINIMUM_EASE_FACTOR, INITIAL_EASE_FACTOR] at h2
  · norm_num [calculateNextReview, INITIAL_EASE_FACTOR]
  · norm_num [calculateNextReview, calculateQuality, calculateNewEaseFactor,
      MINIMUM_EASE_FACTOR]

/-- Claim C1 (amended): the null branch of `calculateNextReview` agrees
with the normal path applied to a state with repetition count 0, ease
factor 5/2 and interval 0 on every field except the ease factor: both give
interval 1, repetition count 1, next review one day after `now` and the
same identity strings, but the null branch fixes the ease factor at 5/2
while the normal path applies the quality update (13/5 at confidence 95
with a correct answer, as the closed conjunct shows). -/
theorem firstReview_agreement :
    (∀ (p : PerformanceQuality) (t nr lr : ℚ),
      (calculateNextReview t none p).interval =
        (calculateNextReview t (some ⟨"", "", nr, 0, 5/2, 0, lr⟩) p).interval ∧
      (calculateNextReview t none p).repetitionCount =
        (calculateNextReview t (some ⟨"", "", nr, 0, 5/2, 0, lr⟩) p).repetitionCount ∧
      (calculateNextReview t none p).nextReviewDate =
        (calculateNextReview t (some ⟨"", "", nr, 0, 5/2, 0, lr⟩) p).nextReviewDate ∧
      (calculateNextReview t none p).lastReviewDate =
        (calculateNextReview t (some ⟨"", "", nr, 0, 5/2, 0, lr⟩) p).lastReviewDate ∧
      (calculateNextReview t none p).exerciseId =
        (calculateNextReview t (some ⟨"", "", nr, 0, 5/2, 0, lr⟩) p).exerciseId ∧
      (calculateNextReview t none p).userId =
        (calculateNextReview t (some ⟨"", "", nr, 0, 5/2, 0, lr⟩) p).userId ∧
      (calculateNextReview t none p).easeFactor = 5/2 ∧
      (calculateNextReview t (some ⟨"", "", nr, 0, 5/2, 0, lr⟩) p).easeFactor =
        calculateNewEaseFactor (5/2) (calculateQuality p)) ∧
    calculateNextReview 0 none ⟨true, 95, 5⟩ =
      { exerciseId := "", userId := "", nextReviewDate := 86400000, interval := 1,
        easeFactor := 5/2, repetitionCount := 1, lastReviewDate := 0 } := by
  constructor
  · intro p t nr lr
    by_cases hq : calculateQuality p < 3
    · simp [calculateNextReview, hq, INITIAL_EASE_FACTOR, not_le.mpr hq]
    · simp [calculateNextReview, hq, INITIAL_EASE_FACTOR, not_lt.mp hq]
  · norm_num [calculateNextReview, INITIAL_EASE_FACTOR, daysToMs,
      SpacedRepetitionSchedule.mk.injEq]

/-- Claim C2 (counterexample): the source reads the global clock.
`calculateNextReview` (line 27), `getDueExercises` (line 110) and
`getStatistics` (line 118) each call `Date.now()` rather than taking the
review instant as a parameter, so two calls with identical declared
arguments but different clock readings return different results, refuting
the claim that the instant is an explicit parameter and that no global
clock is read. -/
theorem scheduler_clock_dependence :
    calculateNextReview 0 none ⟨true, 95, 5⟩ ≠
      calculateNextReview 86400000 none ⟨true, 95, 5⟩ ∧
    getDueExercises 0 [⟨"", "", 1, 1, 5/2, 1, 0⟩] ≠
      getDueExercises 2 [⟨"", "", 1, 1, 5/2, 1, 0⟩] ∧
    getStatistics 0 [⟨"", "", 1, 1, 5/2, 1, 0⟩] ≠
      getStatistics 2 [⟨"", "", 1, 1, 5/2, 1, 0⟩] := by
  refine ⟨?_, ?_, ?_⟩
  · intro h
    have h2 := congrArg SpacedRepetitionSchedule.lastReviewDate h
    norm_num [calculateNextReview] at h2
  · norm_num [getDueExercises, List.filter]
  · intro h
    have h2 := congrArg Statistics.due h
    norm_num [getStatistics, List.filter] at h2

/-- Claim C2 (amended): determinism holds once the clock reading is part
of the inputs.  With the value of the internal `Date.now()` read made
explicit, the scheduler update, the due-item filter and the statistics
summary are pure: two calls with equal clock readings and equal arguments
return equal results. -/
theorem scheduler_deterministic :
    ∀ (now1 now2 : ℚ) (prev1 prev2 : Option SpacedRepetitionSchedule)
      (p1 p2 : PerformanceQuality) (l1 l2 : List SpacedRepetitionSchedule),
      now1 = now2 → prev1 = prev2 → p1 = p2 → l1 = l2 →
      calculateNextReview now1 prev1 p1 = calculateNextReview now2 prev2 p2 ∧
      getDueExercises now1 l1 = getDueExercises now2 l2 ∧
      getStatistics now1 l1 = getStatistics now2 l2 := by
  intro now1 now2 prev1 prev2 p1 p2 l1 l2 hn hp hq hl
  subst hn; subst hp; subst hq; subst hl
  exact ⟨rfl, rfl, rfl⟩

/-- Witness for the determinism theorem at concrete inputs. -/
theorem scheduler_deterministic_witness :
    calculateNextReview 0 none ⟨true, 95, 5⟩ = calculateNextReview 0 none ⟨true, 95, 5⟩ ∧
    getDueExercises 0 [] = getDueExercises 0 [] ∧
    getStatistics 0 [] = getStatistics 0 [] :=
  scheduler_deterministic 0 0 none none ⟨true, 95, 5⟩ ⟨true, 95, 5⟩ [] [] rfl rfl rfl rfl

/-- Claim C3 (confirmed): for a previous state satisfying the data-model
invariant (interval at least 1, nonnegative repetition count) and any
sample and clock instant, the returned state has interval at least 1, ease
factor at least 13/10, nonnegative repetition count, and next review date
equal to the last review date plus interval times 86400000 milliseconds. -/
theorem computeNext_invariants :
    ∀ (now : ℚ) (prev : Option SpacedRepetitionSchedule) (p : PerformanceQuality),
      (∀ cs, prev = some cs → 1 ≤ cs.interval ∧ 0 ≤ cs.repetitionCount) →
      1 ≤ (calculateNextReview now prev p).interval ∧
      13/10 ≤ (calculateNextReview now prev p).easeFactor ∧
      0 ≤ (calculateNextReview now prev p).repetitionCount ∧
      (calculateNextReview now prev p).nextReviewDate =
        (calculateNextReview now prev p).lastReviewDate +
          (calculateNextReview now prev p).interval * 86400000 := by
  intro now prev p h
  match prev with
  | none =>
      refine ⟨by norm_num [calculateNextReview], ?_, by norm_num [calculateNextReview], ?_⟩
      · norm_num [calculateNextReview, INITIAL_EASE_FACTOR]
      · simp [calculateNextReview, daysToMs]; ring
  | some cs =>
      obtain ⟨hi, hr⟩ := h cs rfl
      have hEF := minEase_le_newEaseFactor cs.easeFactor (calculateQuality p)
      have hone : (1:ℚ) ≤ 13/10 * 1 := by norm_num
      have hprod : (1:ℚ) ≤ cs.interval * calculateNewEaseFactor cs.easeFactor (calculateQuality p) := by
        nlinarith
      refine ⟨?_, ?_, ?_, ?_⟩
      · simp only [calculateNextReview]
        split_ifs <;> first
          | exact_mod_cast one_le_jsRound hprod
          | norm_num
      · simpa [calculateNextReview] using hEF
      · simp only [calculateNextReview]
        split_ifs <;> omega
      · simp only [calculateNextReview, daysToMs]
        ring

/-- Witness for the invariant theorem at a concrete previous state. -/
theorem computeNext_invariants_witness :
    1 ≤ (calculateNextReview 0 (some ⟨"", "", 0, 4, 5/2, 2, 0⟩) ⟨true, 95, 5⟩).interval ∧
    13/10 ≤ (calculateNextReview 0 (some ⟨"", "", 0, 4, 5/2, 2, 0⟩) ⟨true, 95, 5⟩).easeFactor ∧
    0 ≤ (calculateNextReview 0 (some ⟨"", "", 0, 4, 5/2, 2, 0⟩) ⟨true, 95, 5⟩).repetitionCount ∧
    (calculateNextReview 0 (some ⟨"", "", 0, 4, 5/2, 2, 0⟩) ⟨true, 95, 5⟩).nextReviewDate =
      (calculateNextReview 0 (some ⟨"", "", 0, 4, 5/2, 2, 0⟩) ⟨true, 95, 5⟩).lastReviewDate +
        (calculateNextReview 0 (some ⟨"", "", 0, 4, 5/2, 2, 0⟩) ⟨true, 95, 5⟩).interval * 86400000 :=
  computeNext_invariants 0 (some ⟨"", "", 0, 4, 5/2, 2, 0⟩) ⟨true, 95, 5⟩
    (by intro cs hcs; cases hcs; exact ⟨by norm_num, by norm_num⟩)

/-- Claim C4 (confirmed): an incorrect answer with confidence below 30
yields quality 0, so for any previous state (in particular one with
interval greater than 1) the new interval is exactly 1; and any failed
review, meaning quality below 3, resets the repetition count to 1, not
0. -/
theorem failure_resets_schedule :
    ∀ (now : ℚ) (cs : SpacedRepetitionSchedule) (p : PerformanceQuality),
      (1 < cs.interval → p.correct = false → p.confidence < 30 →
        (calculateNextReview now (some cs) p).interval = 1) ∧
      (calculateQuality p < 3 →
        (calculateNextReview now (some cs) p).repetitionCount = 1) := by
  intro now cs p
  constructor
  · intro _ hc hconf
    have hq : calculateQuality p < 3 := by
      simp [calculateQuality, hc, hconf]
    simp [calculateNextReview, hq]
  · intro hq
    simp [calculateNextReview, hq, not_le.mpr hq]

/-- Witness for the failure-reset theorem at a concrete state with
interval 10 and a failing sample with confidence 10. -/
theorem failure_resets_schedule_witness :
    (calculateNextReview 0 (some ⟨"", "", 0, 10, 5/2, 4, 0⟩) ⟨false, 10, 2⟩).interval = 1 ∧
    (calculateNextReview 0 (some ⟨"", "", 0, 10, 5/2, 4, 0⟩) ⟨false, 10, 2⟩).repetitionCount = 1 :=
  ⟨(failure_resets_schedule 0 ⟨"", "", 0, 10, 5/2, 4, 0⟩ ⟨false, 10, 2⟩).1
      (by norm_num) rfl (by norm_num),
    (failure_resets_schedule 0 ⟨"", "", 0, 10, 5/2, 4, 0⟩ ⟨false, 10, 2⟩).2
      (by norm_num [calculateQuality])⟩

/-- Claim C5 (counterexample): in example scenario 2 the ease factor does
not move to about 2.56.  At quality 4 the SM-2 delta is
`0.1 - 1 * (0.08 + 1 * 0.02) = 0`, so the ease factor stays exactly 5/2,
which is below 2.55 and hence not within any reasonable tolerance of
2.56. -/
theorem scenario2_counterexample :
    (calculateNextReview 0 (some ⟨"", "", 0, 3, 5/2, 2, 0⟩) ⟨true, 80, 7⟩).easeFactor = 5/2 ∧
    (calculateNextReview 0 (some ⟨"", "", 0, 3, 5/2, 2, 0⟩) ⟨true, 80, 7⟩).easeFactor
      < 51/20 := by
  constructor <;>
    norm_num [calculateNextReview, calculateQuality, calculateNewEaseFactor,
      MINIMUM_EASE_FACTOR]

/-- Claim C5 (amended): for a previous state with interval 3, ease factor
5/2 and repetition count 2 and a correct sample at confidence 80, the
quality maps to 4, the ease factor is unchanged at exactly 5/2 (the SM-2
delta at quality 4 is zero), the interval is
`Math.round(3 * 5/2) = round(7.5) = 8`, and the repetition count becomes
3. -/
theorem scenario2_values :
    ∀ (eid uid : String) (nr lr t ts : ℚ),
      calculateQuality ⟨true, 80, ts⟩ = 4 ∧
      (calculateNextReview t (some ⟨eid, uid, nr, 3, 5/2, 2, lr⟩) ⟨true, 80, ts⟩).easeFactor
        = 5/2 ∧
      (calculateNextReview t (some ⟨eid, uid, nr, 3, 5/2, 2, lr⟩) ⟨true, 80, ts⟩).interval
        = 8 ∧
      (calculateNextReview t (some ⟨eid, uid, nr, 3, 5/2, 2, lr⟩) ⟨true, 80, ts⟩).repetitionCount
        = 3 := by
  intro eid uid nr lr t ts
  refine ⟨?_, ?_, ?_, ?_⟩ <;>
    norm_num [calculateNextReview, calculateQuality, calculateNewEaseFactor,
      MINIMUM_EASE_FACTOR, jsRound]

/-- Claim C6 (counterexample): there is no division-by-zero guard.  With a
correct answer, response time 5, average time 0 and history 0 the score is
40 (Infinity ratio, zero speed points), while the ratio-one call with
response time 1 and average 1 scores 50, so a zero average is not treated
as ratio 1. -/
theorem confidence_guard_counterexample :
    calculateConfidenceScore true 5 0 0 = 40 ∧
    calculateConfidenceScore true 1 1 0 = 50 := by
  constructor <;> norm_num [calculateConfidenceScore, speedScore, jsRound]

/-- Claim C6 (amended): for nonnegative response time and nonpositive
average, the speed component contributes 0 points when the average is
exactly 0 (the IEEE ratio is Infinity or NaN and fails every comparison)
and 30 points when the average is negative (the ratio is nonpositive,
hence below 0.5); it is never the 10 points of a ratio equal to 1. -/
theorem confidence_no_guard :
    ∀ (c : Bool) (t avg acc : ℚ), 0 ≤ t → avg ≤ 0 →
      calculateConfidenceScore c t avg acc =
        jsRound ((if c then 40 else 10) + (if avg = 0 then 0 else 30) + acc * 30) := by
  intro c t avg acc ht havg
  rcases lt_or_eq_of_le havg with hneg | h0
  · have hne : avg ≠ 0 := ne_of_lt hneg
    have hr : t / avg ≤ 0 := div_nonpos_iff.mpr (Or.inl ⟨ht, havg⟩)
    have hr2 : t / avg < 1/2 := lt_of_le_of_lt hr (by norm_num)
    have hs : speedScore t avg = 30 := by
      simp only [speedScore, if_neg hne]
      rw [if_pos hr2]
    rw [calculateConfidenceScore, hs, if_neg hne]
  · subst h0
    simp [calculateConfidenceScore, speedScore, not_lt.mpr ht]

/-- Witness for the no-guard theorem at a concrete zero average. -/
theorem confidence_no_guard_witness :
    calculateConfidenceScore true 5 0 0 =
      jsRound ((if true then 40 else 10) + (if (0:ℚ) = 0 then 0 else 30) + 0 * 30) :=
  confidence_no_guard true 5 0 0 (by norm_num) (by norm_num)

/-- Claim C7 (confirmed): for any correctness flag, nonnegative response
and average times and a history accuracy in [0, 1], the confidence score
is an integer between 0 and 100 (indeed between 10 and 100: at most
40 + 30 + 30, at least 10 + 0 + 0), with no explicit clamp in the code. -/
theorem confidence_score_bounds :
    ∀ (c : Bool) (t avg acc : ℚ), 0 ≤ t → 0 ≤ avg → 0 ≤ acc → acc ≤ 1 →
      0 ≤ calculateConfidenceScore c t avg acc ∧
      calculateConfidenceScore c t avg acc ≤ 100 := by
  intro c t avg acc ht havg hacc0 hacc1
  obtain ⟨hs0, hs30⟩ := speedScore_mem t avg
  have hm0 : (0:ℚ) ≤ acc * 30 := by nlinarith
  have hm30 : acc * 30 ≤ 30 := by nlinarith
  unfold calculateConfidenceScore jsRound
  constructor
  · refine Int.le_floor.mpr ?_
    push_cast
    rcases c <;> simp <;> linarith
  · have hle : (if c then (40:ℚ) else 10) + speedScore t avg + acc * 30 + 1/2 ≤ 201/2 := by
      rcases c <;> simp <;> linarith
    calc ⌊(if c then (40:ℚ) else 10) + speedScore t avg + acc * 30 + 1/2⌋
        ≤ ⌊(201/2 : ℚ)⌋ := Int.floor_le_floor hle
      _ = 100 := by norm_num

/-- Witness for the confidence bound theorem at concrete inputs. -/
theorem confidence_score_bounds_witness :
    0 ≤ calculateConfidenceScore true 1 2 (1/2) ∧
    calculateConfidenceScore true 1 2 (1/2) ≤ 100 :=
  confidence_score_bounds true 1 2 (1/2) (by norm_num) (by norm_num) (by norm_num) (by norm_num)

/-- Claim C8 (confirmed): for any current tier among easy, medium, hard
and expert and any correct rate in [0, 1] and confidence in [0, 100], the
suggested tier is again one of the four and its index differs from the
current index by at most one; in particular the top tier with perfect
performance stays expert and the bottom tier with zero performance stays
easy. -/
theorem tier_step_bounded :
    ∀ (d : String) (rate conf : ℚ),
      d ∈ difficulties → 0 ≤ rate → rate ≤ 1 → 0 ≤ conf → conf ≤ 100 →
      (suggestNextDifficulty d rate conf ∈ difficulties ∧
        (jsIndexOf difficulties (suggestNextDifficulty d rate conf)
          - jsIndexOf difficulties d).natAbs ≤ 1) ∧
      suggestNextDifficulty "expert" 1 100 = "expert" ∧
      suggestNextDifficulty "easy" 0 0 = "easy" := by
  intro d rate conf hd h1 h2 h3 h4
  refine ⟨?_, ?_, ?_⟩
  · fin_cases hd <;>
      · simp only [suggestNextDifficulty]
        split_ifs <;> decide
  · norm_num [suggestNextDifficulty]
    decide
  · norm_num [suggestNextDifficulty]
    decide

/-- Witness for the tier-step theorem at the medium tier with perfect
performance. -/
theorem tier_step_bounded_witness :
    (suggestNextDifficulty "medium" 1 100 ∈ difficulties ∧
      (jsIndexOf difficulties (suggestNextDifficulty "medium" 1 100)
        - jsIndexOf difficulties "medium").natAbs ≤ 1) ∧
    suggestNextDifficulty "expert" 1 100 = "expert" ∧
    suggestNextDifficulty "easy" 0 0 = "easy" :=
  tier_step_bounded "medium" 1 100 (by decide) (by norm_num) (by norm_num)
    (by norm_num) (by norm_num)

/-- Claim C9 (counterexample): the four buckets of `getStatistics` do not
partition the input.  A single schedule with repetition count 0 that is
already due is counted both in the due bucket and in the new bucket, so
the bucket counts sum to 2 while the total is 1. -/
theorem statistics_partition_counterexample :
    (getStatistics 1 [⟨"", "", 0, 1, 5/2, 0, 0⟩]).due
      + (getStatistics 1 [⟨"", "", 0, 1, 5/2, 0, 0⟩]).new
      + (getStatistics 1 [⟨"", "", 0, 1, 5/2, 0, 0⟩]).learning
      + (getStatistics 1 [⟨"", "", 0, 1, 5/2, 0, 0⟩]).review
      ≠ (getStatistics 1 [⟨"", "", 0, 1, 5/2, 0, 0⟩]).total := by
  norm_num [getStatistics, List.filter]

/-- Claim C9 (amended): the new bucket counts every state with repetition
count 0 regardless of dueness, so for states with nonnegative repetition
counts the bucket counts sum to the total plus the number of states that
are simultaneously due and new; each state falls in exactly one of due,
new-and-not-due, learning and mature. -/
theorem statistics_bucket_overlap :
    ∀ (now : ℚ) (schedules : List SpacedRepetitionSchedule),
      (∀ s ∈ schedules, 0 ≤ s.repetitionCount) →
      (getStatistics now schedules).due + (getStatistics now schedules).new
        + (getStatistics now schedules).learning + (getStatistics now schedules).review
      = (getStatistics now schedules).total
        + (schedules.filter (fun s =>
            decide (s.nextReviewDate ≤ now ∧ s.repetitionCount = 0))).length := by
  intro now schedules
  induction schedules with
  | nil => intro h; simp [getStatistics]
  | cons s l ih =>
      intro h
      have hs : 0 ≤ s.repetitionCount := h s (List.mem_cons_self s l)
      have ihl := ih (fun x hx => h x (List.mem_cons_of_mem s hx))
      simp only [getStatistics] at ihl ⊢
      rcases le_or_lt s.nextReviewDate now with hA | hA
      · rcases eq_or_lt_of_le hs with hB | hB
        · simp only [List.filter_cons, List.length_cons, decide_eq_true_eq]
          simp [hA, not_lt.mpr hA, hB.symm] at ihl ⊢
          omega
        · simp only [List.filter_cons, List.length_cons, decide_eq_true_eq]
          simp [hA, not_lt.mpr hA, hB.ne'] at ihl ⊢
          omega
      · rcases eq_or_lt_of_le hs with hB | hB
        · simp only [List.filter_cons, List.length_cons, decide_eq_true_eq]
          simp [not_le.mpr hA, hA, hB.symm] at ihl ⊢
          omega
        · by_cases h3 : s.repetitionCount < 3
          · simp only [List.filter_cons, List.length_cons, decide_eq_true_eq]
            simp [not_le.mpr hA, hA, hB, hB.ne', h3, not_le.mpr h3] at ihl ⊢
            omega
          · simp only [List.filter_cons, List.length_cons, decide_eq_true_eq]
            simp [not_le.mpr hA, hA, hB, hB.ne', h3, not_lt.mp h3] at ihl ⊢
            omega

/-- Witness for the bucket-overlap theorem on a singleton due-and-new
collection. -/
theorem statistics_bucket_overlap_witness :
    (getStatistics 1 [⟨"", "", 0, 1, 5/2, 0, 0⟩]).due
      + (getStatistics 1 [⟨"", "", 0, 1, 5/2, 0, 0⟩]).new
      + (getStatistics 1 [⟨"", "", 0, 1, 5/2, 0, 0⟩]).learning
      + (getStatistics 1 [⟨"", "", 0, 1, 5/2, 0, 0⟩]).review
    = (getStatistics 1 [⟨"", "", 0, 1, 5/2, 0, 0⟩]).total
      + ([(⟨"", "", 0, 1, 5/2, 0, 0⟩ : SpacedRepetitionSchedule)].filter (fun s =>
          decide (s.nextReviewDate ≤ 1 ∧ s.repetitionCount = 0))).length :=
  statistics_bucket_overlap 1 [⟨"", "", 0, 1, 5/2, 0, 0⟩]
    (by intro s hsm; simp only [List.mem_singleton] at hsm; subst hsm; norm_num)

/-- Claim C10 (confirmed): every state returned by `calculateNextReview`
has repetition count at least 1 (the null branch returns 1 and the normal
path returns the previous count plus 1 or 1), hence never satisfies the
new-bucket predicate of `getStatistics`: a singleton collection holding a
scheduler output has a new count of 0 at every instant. -/
theorem computeNext_rep_positive :
    ∀ (now : ℚ) (prev : Option SpacedRepetitionSchedule) (p : PerformanceQuality),
      (∀ cs, prev = some cs → 0 ≤ cs.repetitionCount) →
      1 ≤ (calculateNextReview now prev p).repetitionCount ∧
      ¬ (calculateNextReview now prev p).repetitionCount = 0 ∧
      ∀ t : ℚ, (getStatistics t [calculateNextReview now prev p]).new = 0 := by
  intro now prev p h
  have hrep : 1 ≤ (calculateNextReview now prev p).repetitionCount := by
    match prev with
    | none => simp [calculateNextReview]
    | some cs =>
        have hcs := h cs rfl
        simp only [calculateNextReview]
        split_ifs <;> omega
  refine ⟨hrep, by omega, ?_⟩
  intro t
  have hne : ¬ (calculateNextReview now prev p).repetitionCount = 0 := by omega
  simp [getStatistics, List.filter, hne]

/-- Witness for the positive-repetition theorem at a concrete previous
state with repetition count 0. -/
theorem computeNext_rep_positive_witness :
    1 ≤ (calculateNextReview 0 (some ⟨"", "", 0, 1, 5/2, 0, 0⟩) ⟨false, 50, 3⟩).repetitionCount ∧
    ¬ (calculateNextReview 0 (some ⟨"", "", 0, 1, 5/2, 0, 0⟩) ⟨false, 50, 3⟩).repetitionCount = 0 ∧
    ∀ t : ℚ,
      (getStatistics t [calculateNextReview 0 (some ⟨"", "", 0, 1, 5/2, 0, 0⟩) ⟨false, 50, 3⟩]).new
        = 0 :=
  computeNext_rep_positive 0 (some ⟨"", "", 0, 1, 5/2, 0, 0⟩) ⟨false, 50, 3⟩
    (by intro cs hcs; cases hcs; norm_num)
